import Mathlib

/-!
# Verification of the `ws2811` web emulator (supcik/web_ws281x_go)

Shallow embedding of the Go package that emulates a ws281x LED device over a
web socket, together with proofs of the specification's testable properties.

Conventions of the embedding:
* Go runtime panics (out-of-range slice indexing) are modelled by `Option`:
  a result of `none` is a crash, never a returned error value.
* Go `error` returns are modelled by `Except String` carrying the exact
  error strings of the source.
* Go slices of `uint32` are `List Nat` (the values are only stored and
  copied, never computed with, so no modular arithmetic is involved).
* `time.Time` / `time.Duration` values are modelled as exact rationals
  measured in seconds; the source computes the pacing interval in `float64`
  seconds, which the rational model renders exactly.
-/

deriving instance DecidableEq for Except

namespace WS2811Web

/-- Constant `RpiPwmChannels` is the number of PWM channels in the Raspberry Pi. -/
def RpiPwmChannels : Nat := 2

/-- Constant `TargetFreq` is the target frequency, usually 800kHz. -/
def TargetFreq : Nat := 800000

/-- Constant `DefaultLedCount` is the default number of LEDs on the stripe. -/
def DefaultLedCount : Nat := 16

/-- Constant `DefaultBrightness` is the default maximum brightness of the LEDs. -/
def DefaultBrightness : Nat := 64

/-- Record `ChannelOption` is the list of channel options (`ChannelOption` in the
source). `Gamma` is the optional gamma correction table (`nil` or a byte
slice). -/
structure ChannelOption where
  ledCount : Nat
  stripeType : Int
  brightness : Nat
  wShift : Int
  rShift : Int
  gShift : Int
  bShift : Int
  gamma : Option (List Nat)
  deriving Repr, DecidableEq

/-- Record `DeviceOption` is the list of device options (`Option` in the source;
renamed because `Option` is taken in Lean). -/
structure DeviceOption where
  renderWaitTime : Int
  frequency : Nat
  channels : List ChannelOption
  deriving Repr, DecidableEq

/-- Record `WS2811` represents the ws2811 device. The `hub` pointer of the source is
modelled externally as the list of messages handed to the hub's broadcast
channel (see `render`); `lastRender` is a timestamp in seconds. -/
structure WS2811 where
  initialized : Bool
  options : DeviceOption
  leds : List (List Nat)
  lastRender : ℚ
  deriving Repr, DecidableEq

/-- Constructor `MakeWS2811` creates an instance of web WS2811. The zero value of
`time.Time` is rendered as time `0`; `ws2811.leds` starts as the `nil`
slice (`[]`). The deep copy of the caller's options is value semantics
here; the aliasing content of the deep copy is modelled separately by the
heap model below. -/
def MakeWS2811 (opt : DeviceOption) : WS2811 :=
  { initialized := false
    options := opt
    leds := []
    lastRender := 0 }

/-- Go slice store `s[i] = a`: `none` models the index-out-of-range panic. -/
def listSet {α : Type} : List α → Nat → α → Option (List α)
  | [], _, _ => none
  | _ :: xs, 0, a => some (a :: xs)
  | x :: xs, n + 1, a => (listSet xs n a).map (fun ys => x :: ys)

/-- The allocation loop of `Init`:
`for i := 0; i < len(channels); i++ { leds[i] = make([]uint32, LedCount) }`.
`make([]uint32, n)` is `List.replicate n 0` (zero-initialised). -/
def allocLoop : List ChannelOption → Nat → List (List Nat) → Option (List (List Nat))
  | [], _, leds => some leds
  | ch :: rest, i, leds =>
    match listSet leds i (List.replicate ch.ledCount 0) with
    | none => none
    | some leds₁ => allocLoop rest (i + 1) leds₁

/-- Method `Init` initializes the device. It allocates `RpiPwmChannels` LED slots
(`make([][]uint32, RpiPwmChannels)`, each slot the `nil` slice `[]`) and then
sizes one slot per configured channel. A `none` result is a runtime panic;
`Except.error` is a returned Go error. Note that the source never sets
`initialized` to `true`, so the `already initialized` branch is dead code. -/
def WS2811.Init (dev : WS2811) : Option (Except String WS2811) :=
  if dev.initialized then some (Except.error "device already initialized")
  else
    match allocLoop dev.options.channels 0 (List.replicate RpiPwmChannels []) with
    | none => none
    | some l => some (Except.ok { dev with leds := l })

/-- Method `Leds` returns the LEDs array of a given channel: `ws2811.leds[channel]`,
which panics (`none`) when `channel` is outside the allocated slots. -/
def WS2811.Leds (dev : WS2811) (channel : Nat) : Option (List Nat) :=
  dev.leds.get? channel

/-- The write loop of `SetLedsSync`:
`for i := 0; i < l; i++ { ws2811.leds[channel][i] = leds[i] }` — it
overwrites the first `leds.length` slots of the current row element-wise and
leaves the rest as they were. -/
def writeFirstSlots (cur vals : List Nat) : List Nat :=
  vals ++ cur.drop vals.length

/-- Method `SetLedsSync` waits for the frame to finish and replaces the LEDs of one
channel. `Wait` is called first and reads `Channels[0]` (a panic when no
channel is configured); then `len(ws2811.leds[channel])` panics when
`channel` is out of the allocated range; a write longer than the slot is
rejected with the `Too many LEDs` error before any slot is written. The
returned device is the state after the call (unchanged on error). -/
def WS2811.SetLedsSync (dev : WS2811) (channel : Nat) (leds : List Nat) :
    Option (WS2811 × Except String Unit) :=
  match dev.options.channels.head? with
  | none => none
  | some _ =>
    match dev.leds.get? channel with
    | none => none
    | some cur =>
      if leds.length > cur.length then some (dev, Except.error "Error: Too many LEDs")
      else some ({ dev with leds := dev.leds.set channel (writeFirstSlots cur leds) },
                 Except.ok ())

/-- The pacing interval of `Wait`:
`dt := (float64(8*3*Channels[0].LedCount) + 0.05) / float64(Frequency)`,
in seconds, rendered as an exact rational. `none` models the panic of
`Channels[0]` on an empty channel list. -/
def waitDt (dev : WS2811) : Option ℚ :=
  dev.options.channels.head?.map
    (fun ch0 => ((8 * 3 * ch0.ledCount : ℚ) + 1 / 20) / (dev.options.frequency : ℚ))

/-- The duration `Wait` suspends the caller for:
`time.Sleep(time.Until(lastRender.Add(dt)))` sleeps for
`lastRender + dt - now` when that is positive and returns immediately
(a sleep of `0`) otherwise. -/
def waitSleep (dev : WS2811) (now : ℚ) : Option ℚ :=
  (waitDt dev).map (fun dt => max 0 (dev.lastRender + dt - now))

/-- The frame message of `Render`: the anonymous payload struct
`{ Option ChannelOption; Leds []uint32 }` with JSON keys `option` and
`leds`. `json.Marshal` is kept abstract (the spec scopes out the byte-level
encoding beyond this schema; marshalling this payload cannot fail). -/
structure Frame where
  option : ChannelOption
  leds : List Nat
  deriving Repr, DecidableEq

/-- The observable events of one `Render` call, in program order. -/
inductive REvent where
  | sleep (d : ℚ)
  | handoff (f : Frame)
  | recordLastRender (t : ℚ)
  deriving Repr, DecidableEq

/-- The event trace of `Render`: wait out the pacing interval, serialize
channel 0's configuration and LED values, hand the message to
`ws2811.hub.broadcast`, then record `time.Now()` as the new `lastRender`.
`now` is the clock when `Render` is entered and `tNow` the clock when
`time.Now()` is read after the hand-off. `none` models the panics of
`Channels[0]` (inside `Wait` and the payload) and of `leds[0]`. -/
def renderTrace (dev : WS2811) (now tNow : ℚ) : Option (List REvent) :=
  match waitSleep dev now, dev.options.channels.head?, dev.leds.head? with
  | some d, some ch0, some l0 =>
    some [REvent.sleep d, REvent.handoff ⟨ch0, l0⟩, REvent.recordLastRender tNow]
  | _, _, _ => none

/-- How each `Render` event acts on the device state and on the hub's
broadcast stream (the list of messages handed to `hub.broadcast`, oldest
first). -/
def applyREvent (s : WS2811 × List Frame) : REvent → WS2811 × List Frame
  | REvent.sleep _ => s
  | REvent.handoff f => (s.1, s.2 ++ [f])
  | REvent.recordLastRender t => ({ s.1 with lastRender := t }, s.2)

/-- Method `Render` sends a complete frame to the web socket: the state and hub
stream after replaying the event trace. -/
def WS2811.Render (dev : WS2811) (hub : List Frame) (now tNow : ℚ) :
    Option (WS2811 × List Frame) :=
  (renderTrace dev now tNow).map (fun tr => tr.foldl applyREvent (dev, hub))

/-- Method `Fini` shuts down the device. -/
def WS2811.Fini (dev : WS2811) : WS2811 :=
  { dev with initialized := false }

/-- The device states reachable through the producer-facing API: a fresh
`MakeWS2811` followed by a successful `Init`, then any sequence of
successful `SetLedsSync` and `Render` calls. -/
inductive Reachable : WS2811 → Prop where
  | dInit : ∀ (opt : DeviceOption) (dev : WS2811),
      (MakeWS2811 opt).Init = some (Except.ok dev) → Reachable dev
  | dSet : ∀ (dev : WS2811) (ch : Nat) (vals : List Nat) (dev' : WS2811),
      Reachable dev → dev.SetLedsSync ch vals = some (dev', Except.ok ()) →
      Reachable dev'
  | dRender : ∀ (dev : WS2811) (hub : List Frame) (now tNow : ℚ)
      (dev' : WS2811) (hub' : List Frame),
      Reachable dev → dev.Render hub now tNow = some (dev', hub') → Reachable dev'

end WS2811Web

namespace WS2811Client

/-- Record `Client` is a middleman between the websocket connection and the hub
(`client.go`). Only the buffered outbound channel `send` matters here; it is
modelled as the FIFO list of queued byte messages, head = next to be
received. Bytes are `Nat`. -/
structure Client where
  send : List (List Nat)
  deriving Repr, DecidableEq

/-- The drain loop of `sendMessage`:
`n := len(c.send); for i := 0; i < n; i++ { w.Write(<-c.send) }` —
receives exactly `n` messages from the queue and appends each to the
current websocket writer `w`. Returns the remaining queue and the
accumulated transmission unit. -/
def drainLoop : Nat → List (List Nat) → List Nat → List (List Nat) × List Nat
  | 0, q, acc => (q, acc)
  | _ + 1, [], acc => ([], acc)
  | n + 1, m :: q, acc => drainLoop n q (acc ++ m)

/-- Method `sendMessage` writes `message` to one websocket writer, drains every
message already queued on `c.send` into the same writer, and closes the
writer: the transport sees one transmission unit. Transport write errors
are external failures outside the model; this is the successful path, which
is the only one that finalizes a transmission unit. -/
def Client.sendMessage (c : Client) (message : List Nat) : Client × List Nat :=
  let r := drainLoop c.send.length c.send message
  ({ send := r.1 }, r.2)

end WS2811Client

namespace WS2811Heap

/-!
## Heap model of the configuration deep copy

`MakeWS2811` stores `deepcopy.Copy(opt).(*Option)`: a full deep copy of the
caller's `*Option`, including the `Channels` slice and each channel's
`Gamma` byte slice (the `mohae/deepcopy` library recursively copies nested
slices). To state what the copy buys — that the caller's later mutations of
its own `Option` value cannot reach the instance — Go references are made
explicit: a heap of option records, channel-slice cells and byte-slice
cells, addressed by `Nat`, with every address `≥ nextFree` unallocated.
The caller only holds references created before the copy (addresses
`< nextFree`), so a caller-side mutation is any heap change that preserves
the cells at addresses `≥ nextFree`.
-/

open WS2811Web

/-- A channel option as laid out in memory: the `Gamma []byte` field is a
slice reference (`none` = `nil`). -/
structure ChannelOptionH where
  ledCount : Nat
  stripeType : Int
  brightness : Nat
  wShift : Int
  rShift : Int
  gShift : Int
  bShift : Int
  gammaRef : Option Nat
  deriving Repr, DecidableEq

/-- A device option record as laid out in memory: the `Channels` field is a
slice reference. -/
structure OptionH where
  renderWaitTime : Int
  frequency : Nat
  channelsRef : Nat
  deriving Repr, DecidableEq

/-- The heap: three address spaces of cells plus the allocation bound.
Addresses `≥ nextFree` are unallocated; fresh cells are placed there. -/
structure Heap where
  optionCells : Nat → Option OptionH
  chanCells : Nat → Option (List ChannelOptionH)
  byteCells : Nat → Option (List Nat)
  nextFree : Nat

/-- Dereference one channel option, loading its gamma table. -/
def resolveChannel (h : Heap) (c : ChannelOptionH) : Option ChannelOption :=
  match c.gammaRef with
  | none => some ⟨c.ledCount, c.stripeType, c.brightness, c.wShift, c.rShift,
                  c.gShift, c.bShift, none⟩
  | some g => (h.byteCells g).map
      (fun bs => ⟨c.ledCount, c.stripeType, c.brightness, c.wShift, c.rShift,
                  c.gShift, c.bShift, some bs⟩)

/-- Dereference a list of channel options. -/
def resolveChannels (h : Heap) : List ChannelOptionH → Option (List ChannelOption)
  | [] => some []
  | c :: rest =>
    match resolveChannel h c, resolveChannels h rest with
    | some v, some vs => some (v :: vs)
    | _, _ => none

/-- Fully dereference an option record: the value the running instance
observes when it reads its configuration through its root reference. -/
def resolveOption (h : Heap) (r : Nat) : Option DeviceOption :=
  match h.optionCells r with
  | none => none
  | some o =>
    match h.chanCells o.channelsRef with
    | none => none
    | some chs =>
      (resolveChannels h chs).map
        (fun vs => ⟨o.renderWaitTime, o.frequency, vs⟩)

/-- Allocate a fresh byte-slice cell. -/
def allocByte (h : Heap) (bs : List Nat) : Heap × Nat :=
  ({ h with
      byteCells := fun x => if x = h.nextFree then some bs else h.byteCells x
      nextFree := h.nextFree + 1 },
   h.nextFree)

/-- Allocate a fresh channel-slice cell. -/
def allocChan (h : Heap) (chs : List ChannelOptionH) : Heap × Nat :=
  ({ h with
      chanCells := fun x => if x = h.nextFree then some chs else h.chanCells x
      nextFree := h.nextFree + 1 },
   h.nextFree)

/-- Allocate a fresh option-record cell. -/
def allocOption (h : Heap) (o : OptionH) : Heap × Nat :=
  ({ h with
      optionCells := fun x => if x = h.nextFree then some o else h.optionCells x
      nextFree := h.nextFree + 1 },
   h.nextFree)

/-- Copy every channel of a slice, duplicating each gamma table into a
fresh byte cell (`none` = dereference of a dangling gamma reference, which
cannot arise from a live Go value). -/
def copyChannels (h : Heap) : List ChannelOptionH → Option (Heap × List ChannelOptionH)
  | [] => some (h, [])
  | c :: rest =>
    match c.gammaRef with
    | none =>
      match copyChannels h rest with
      | none => none
      | some (h₁, cs) => some (h₁, c :: cs)
    | some g =>
      match h.byteCells g with
      | none => none
      | some bs =>
        match copyChannels (allocByte h bs).1 rest with
        | none => none
        | some (h₁, cs) => some (h₁, { c with gammaRef := some (allocByte h bs).2 } :: cs)

/-- Model of `deepcopy.Copy(opt).(*Option)`: duplicate the option record, its
channel slice and every gamma table into fresh cells; returns the extended
heap and the instance's new root reference. -/
def deepCopy (h : Heap) (r : Nat) : Option (Heap × Nat) :=
  match h.optionCells r with
  | none => none
  | some o =>
    match h.chanCells o.channelsRef with
    | none => none
    | some chs =>
      match copyChannels h chs with
      | none => none
      | some (h₁, chs') =>
        let rc := allocChan h₁ chs'
        let ro := allocOption rc.1 { o with channelsRef := rc.2 }
        some (ro.1, ro.2)

/-- Heap `h₂` agrees with `h` on every cell at an address `≥ bound`. A mutation
the caller performs through references it held before the copy (all
`< bound = nextFree` at copy time) satisfies this. -/
def PreservesFresh (bound : Nat) (h h₂ : Heap) : Prop :=
  (∀ a, bound ≤ a → h₂.optionCells a = h.optionCells a) ∧
  (∀ a, bound ≤ a → h₂.chanCells a = h.chanCells a) ∧
  (∀ a, bound ≤ a → h₂.byteCells a = h.byteCells a)

end WS2811Heap

namespace WS2811Web

/-- A concrete channel configuration with 4 LEDs, used to exercise the
theorems on explicit inputs. -/
def chA : ChannelOption :=
  { ledCount := 4, stripeType := 0, brightness := 64
    wShift := 0, rShift := 0, gShift := 0, bShift := 0, gamma := none }

/-- A one-channel device configuration built around `chA`. -/
def optA : DeviceOption :=
  { renderWaitTime := 0, frequency := 800000, channels := [chA] }

/-- The device state right after `MakeWS2811(optA)` followed by a
successful `Init`: two allocated slots, the first sized to 4 LEDs. -/
def devA : WS2811 :=
  { initialized := false, options := optA
    leds := [List.replicate 4 0, []], lastRender := 0 }

/-- A three-channel configuration (one more than `RpiPwmChannels`). -/
def optB : DeviceOption :=
  { renderWaitTime := 0, frequency := 800000, channels := [chA, chA, chA] }

/-- The channel configuration of the spec's concrete pacing scenario:
16 LEDs. -/
def ch16 : ChannelOption :=
  { ledCount := 16, stripeType := 0, brightness := 64
    wShift := 0, rShift := 0, gShift := 0, bShift := 0, gamma := none }

/-- The device of the spec's concrete pacing scenario: 1 channel, 16 LEDs,
frequency 800000. -/
def dev16 : WS2811 :=
  MakeWS2811 { renderWaitTime := 0, frequency := 800000, channels := [ch16] }

end WS2811Web

namespace WS2811Heap

/-- A concrete channel record whose gamma table lives at byte cell 0. -/
def chH : ChannelOptionH :=
  { ledCount := 16, stripeType := 0, brightness := 64
    wShift := 0, rShift := 0, gShift := 0, bShift := 0, gammaRef := some 0 }

/-- A concrete caller-side heap: the caller's option record at address 0
references the channel slice at address 1, whose channel references the
gamma bytes at address 0; addresses 2 and above are free. -/
def hW : Heap :=
  { optionCells := fun x => if x = 0 then some ⟨0, 800000, 1⟩ else none
    chanCells := fun x => if x = 1 then some [chH] else none
    byteCells := fun x => if x = 0 then some [10, 20, 30] else none
    nextFree := 2 }

/-- The heap after deep-copying the caller's option record of `hW`. -/
def hW' : Heap := ((deepCopy hW 0).getD (hW, 0)).1

/-- The instance's root reference into `hW'`. -/
def rW' : Nat := ((deepCopy hW 0).getD (hW, 0)).2

/-- A caller-side mutation: overwrite the gamma table the caller still
references at byte cell 0 (an address allocated before the copy). -/
def mutGamma (h : Heap) : Heap :=
  { h with byteCells := fun x => if x = 0 then some [7] else h.byteCells x }

end WS2811Heap

/-! ## Helper lemmas -/

namespace WS2811Web

theorem listSet_ge {α : Type} : ∀ (xs : List α) (n : Nat) (a : α),
    xs.length ≤ n → listSet xs n a = none
  | [], _, _, _ => rfl
  | _ :: xs, n + 1, a, h => by
    simp only [listSet, listSet_ge xs n a (by simpa using h), Option.map_none']

theorem listSet_lt {α : Type} : ∀ (xs : List α) (n : Nat) (a : α),
    n < xs.length → ∃ ys, listSet xs n a = some ys
  | _ :: xs, 0, a, _ => ⟨_, rfl⟩
  | x :: xs, n + 1, a, h => by
    obtain ⟨ys, hys⟩ := listSet_lt xs n a (by simpa using h)
    exact ⟨x :: ys, by simp [listSet, hys]⟩

theorem listSet_length {α : Type} : ∀ (xs : List α) (n : Nat) (a : α) (ys : List α),
    listSet xs n a = some ys → ys.length = xs.length
  | [], _, _, _, h => by simp [listSet] at h
  | x :: xs, 0, a, ys, h => by
    simp only [listSet, Option.some.injEq] at h
    subst h; rfl
  | x :: xs, n + 1, a, ys, h => by
    simp only [listSet, Option.map_eq_some'] at h
    obtain ⟨zs, hzs, rfl⟩ := h
    simp [listSet_length xs n a zs hzs]

theorem listSet_get?_self {α : Type} : ∀ (xs : List α) (n : Nat) (a : α) (ys : List α),
    listSet xs n a = some ys → ys.get? n = some a
  | [], _, _, _, h => by simp [listSet] at h
  | x :: xs, 0, a, ys, h => by
    simp only [listSet, Option.some.injEq] at h
    subst h; rfl
  | x :: xs, n + 1, a, ys, h => by
    simp only [listSet, Option.map_eq_some'] at h
    obtain ⟨zs, hzs, rfl⟩ := h
    simpa using listSet_get?_self xs n a zs hzs

theorem listSet_get?_other {α : Type} : ∀ (xs : List α) (n : Nat) (a : α) (ys : List α)
    (m : Nat), listSet xs n a = some ys → m ≠ n → ys.get? m = xs.get? m
  | [], _, _, _, _, h, _ => by simp [listSet] at h
  | x :: xs, 0, a, ys, m, h, hm => by
    simp only [listSet, Option.some.injEq] at h
    subst h
    cases m with
    | zero => exact absurd rfl hm
    | succ m => rfl
  | x :: xs, n + 1, a, ys, m, h, hm => by
    simp only [listSet, Option.map_eq_some'] at h
    obtain ⟨zs, hzs, rfl⟩ := h
    cases m with
    | zero => rfl
    | succ m => simpa using listSet_get?_other xs n a zs m hzs (by omega)

theorem allocLoop_some_spec : ∀ (chs : List ChannelOption) (i : Nat)
    (leds leds' : List (List Nat)), allocLoop chs i leds = some leds' →
    leds'.length = leds.length ∧
    (∀ k ch, chs.get? k = some ch →
      leds'.get? (i + k) = some (List.replicate ch.ledCount 0)) ∧
    (∀ j, j < i → leds'.get? j = leds.get? j)
  | [], i, leds, leds', h => by
    simp only [allocLoop, Option.some.injEq] at h
    subst h
    exact ⟨rfl, fun k ch hk => by simp at hk, fun j _ => rfl⟩
  | ch :: rest, i, leds, leds', h => by
    simp only [allocLoop] at h
    rcases hset : listSet leds i (List.replicate ch.ledCount 0) with _ | leds₁
    · rw [hset] at h; exact absurd h (by simp)
    rw [hset] at h
    obtain ⟨hlen, hget, hlow⟩ := allocLoop_some_spec rest (i + 1) leds₁ leds' h
    refine ⟨hlen.trans (listSet_length _ _ _ _ hset), ?_, ?_⟩
    · intro k c hk
      cases k with
      | zero =>
        simp only [List.get?] at hk
        cases hk
        rw [Nat.add_zero, hlow i (Nat.lt_succ_self i)]
        exact listSet_get?_self _ _ _ _ hset
      | succ k =>
        have : i + (k + 1) = (i + 1) + k := by omega
        rw [this]
        exact hget k c (by simpa using hk)
    · intro j hj
      rw [hlow j (by omega)]
      exact listSet_get?_other _ _ _ _ _ hset (by omega)

theorem allocLoop_none : ∀ (chs : List ChannelOption) (i : Nat)
    (leds : List (List Nat)), chs ≠ [] → leds.length < i + chs.length →
    allocLoop chs i leds = none
  | [], _, _, hne, _ => absurd rfl hne
  | ch :: rest, i, leds, _, hlt => by
    simp only [allocLoop]
    rcases Nat.lt_or_ge i leds.length with hi | hi
    · obtain ⟨leds₁, hset⟩ := listSet_lt leds i (List.replicate ch.ledCount 0) hi
      rw [hset]
      have hrest : rest ≠ [] := by
        rintro rfl
        simp only [List.length_cons, List.length_nil] at hlt
        omega
      exact allocLoop_none rest (i + 1) leds₁ hrest
        (by rw [listSet_length _ _ _ _ hset]; simp only [List.length_cons] at hlt; omega)
    · rw [listSet_ge leds i _ hi]

theorem allocLoop_some_of_le : ∀ (chs : List ChannelOption) (i : Nat)
    (leds : List (List Nat)), i + chs.length ≤ leds.length →
    ∃ leds', allocLoop chs i leds = some leds'
  | [], i, leds, _ => ⟨leds, rfl⟩
  | ch :: rest, i, leds, hle => by
    obtain ⟨leds₁, hset⟩ := listSet_lt leds i (List.replicate ch.ledCount 0)
      (by simp only [List.length_cons] at hle; omega)
    obtain ⟨leds', h⟩ := allocLoop_some_of_le rest (i + 1) leds₁
      (by rw [listSet_length _ _ _ _ hset]; simp only [List.length_cons] at hle; omega)
    exact ⟨leds', by simp [allocLoop, hset, h]⟩

theorem get?_set_self {α : Type} : ∀ (l : List α) (n : Nat) (a : α),
    n < l.length → (l.set n a).get? n = some a
  | _ :: _, 0, _, _ => rfl
  | x :: xs, n + 1, a, h => by
    simpa using get?_set_self xs n a (by simpa using h)

theorem get?_set_other {α : Type} : ∀ (l : List α) (n m : Nat) (a : α),
    n ≠ m → (l.set n a).get? m = l.get? m
  | [], _, _, _, _ => by simp
  | x :: xs, 0, m, a, h => by
    cases m with
    | zero => exact absurd rfl h
    | succ m => rfl
  | x :: xs, n + 1, m, a, h => by
    cases m with
    | zero => rfl
    | succ m => simpa using get?_set_other xs n m a (by omega)

theorem writeFirstSlots_length (cur vals : List Nat) (h : vals.length ≤ cur.length) :
    (writeFirstSlots cur vals).length = cur.length := by
  simp only [writeFirstSlots, List.length_append, List.length_drop]
  omega

theorem renderTrace_some (dev : WS2811) (now tNow : ℚ) (tr : List REvent)
    (h : renderTrace dev now tNow = some tr) :
    ∃ d ch0 l0, waitSleep dev now = some d ∧
      dev.options.channels.head? = some ch0 ∧ dev.leds.head? = some l0 ∧
      tr = [REvent.sleep d, REvent.handoff ⟨ch0, l0⟩, REvent.recordLastRender tNow] := by
  unfold renderTrace at h
  split at h
  · next d ch0 l0 hw hc hl =>
    cases h
    exact ⟨d, ch0, l0, hw, hc, hl, rfl⟩
  · exact absurd h (by simp)

theorem Render_some (dev : WS2811) (hub : List Frame) (now tNow : ℚ)
    (dev' : WS2811) (hub' : List Frame)
    (h : dev.Render hub now tNow = some (dev', hub')) :
    ∃ d ch0 l0, waitSleep dev now = some d ∧
      dev.options.channels.head? = some ch0 ∧ dev.leds.head? = some l0 ∧
      dev' = { dev with lastRender := tNow } ∧ hub' = hub ++ [⟨ch0, l0⟩] := by
  unfold WS2811.Render at h
  rcases htr : renderTrace dev now tNow with _ | tr
  · rw [htr] at h; exact absurd h (by simp)
  · rw [htr] at h
    obtain ⟨d, ch0, l0, hw, hc, hl, rfl⟩ := renderTrace_some dev now tNow tr htr
    simp only [Option.map_some', Option.some.injEq, Prod.mk.injEq, List.foldl,
      applyREvent] at h
    exact ⟨d, ch0, l0, hw, hc, hl, h.1.symm, h.2.symm⟩

theorem SetLedsSync_ok (dev : WS2811) (ch : Nat) (vals : List Nat) (dev' : WS2811)
    (h : dev.SetLedsSync ch vals = some (dev', Except.ok ())) :
    ∃ cur, dev.leds.get? ch = some cur ∧ vals.length ≤ cur.length ∧
      dev' = { dev with leds := dev.leds.set ch (writeFirstSlots cur vals) } := by
  unfold WS2811.SetLedsSync at h
  split at h
  · exact absurd h (by simp)
  · split at h
    · exact absurd h (by simp)
    · next cur heq =>
      split at h
      · simp at h
      · next hgt =>
        simp only [Option.some.injEq, Prod.mk.injEq] at h
        exact ⟨cur, heq, Nat.le_of_not_lt hgt, h.1.symm⟩

/-- The shape invariant of the LED storage: two allocated slots, each
configured channel's slot sized to its LED count. -/
def LedsInv (dev : WS2811) : Prop :=
  dev.leds.length = RpiPwmChannels ∧
  ∀ i ch, dev.options.channels.get? i = some ch →
    ∃ l, dev.leds.get? i = some l ∧ l.length = ch.ledCount

theorem reachable_ledsInv : ∀ dev : WS2811, Reachable dev → LedsInv dev := by
  intro dev h
  induction h with
  | dInit opt dev hinit =>
    unfold WS2811.Init at hinit
    simp only [MakeWS2811, Bool.false_eq_true, if_false] at hinit
    rcases halloc : allocLoop opt.channels 0 (List.replicate RpiPwmChannels []) with _ | l
    · rw [halloc] at hinit; exact absurd hinit (by simp)
    · rw [halloc] at hinit
      simp only [Option.some.injEq, Except.ok.injEq] at hinit
      obtain ⟨hlen, hget, _⟩ := allocLoop_some_spec _ _ _ _ halloc
      subst hinit
      refine ⟨by simpa using hlen, fun i ch hi => ?_⟩
      exact ⟨List.replicate ch.ledCount 0, by simpa using hget i ch hi,
             List.length_replicate _ _⟩
  | dSet dev ch vals dev' _ hset ih =>
    obtain ⟨cur, hcur, hle, rfl⟩ := SetLedsSync_ok dev ch vals dev' hset
    have hchlt : ch < dev.leds.length := by
      by_contra hcontra
      rw [List.get?_len_le (Nat.le_of_not_lt hcontra)] at hcur
      exact absurd hcur (by simp)
    refine ⟨by simpa [List.length_set] using ih.1, fun i c' hi => ?_⟩
    by_cases hich : i = ch
    · subst hich
      obtain ⟨l, hl, hllen⟩ := ih.2 i c' hi
      rw [hcur] at hl
      cases hl
      exact ⟨writeFirstSlots cur vals, get?_set_self _ _ _ hchlt,
             by rw [writeFirstSlots_length cur vals hle]; exact hllen⟩
    · obtain ⟨l, hl, hllen⟩ := ih.2 i c' hi
      exact ⟨l, by rw [get?_set_other _ _ _ _ (fun hh => hich hh.symm)]; exact hl, hllen⟩
  | dRender dev hub now tNow dev' hub' _ hrender ih =>
    obtain ⟨_, _, _, _, _, _, rfl, _⟩ := Render_some dev hub now tNow dev' hub' hrender
    exact ih

end WS2811Web

/-! ## The claims -/

open WS2811Web WS2811Client WS2811Heap

/-- C1 (code bug): the source's `Init` never sets `initialized` to `true`,
so its `already initialized` guard is dead code: after a first successful
`Init` on a fresh instance, a second `Init` succeeds again (silently
reallocating the LED storage) instead of returning the `AlreadyInitialized`
error, contradicting `Init`'s own doc comment ("It should be called only
once") and the guard's evident purpose. -/
theorem c1_second_init_not_rejected :
    (MakeWS2811 optA).Init = some (Except.ok devA) ∧
    devA.Init = some (Except.ok devA) ∧
    devA.Init ≠ some (Except.error "device already initialized") := by
  refine ⟨by decide, by decide, by decide⟩

/-- C2 (counterexample): on a configured and initialized one-channel device,
reading or writing channel 2 — outside the configured range — evaluates to
`none`, the model of a Go index-out-of-range panic (a crash): no
`ChannelIndexOutOfRange` error value is surfaced to the caller, contrary to
the claim. -/
theorem c2_out_of_range_crashes :
    devA.SetLedsSync 2 [1] = none ∧ devA.Leds 2 = none := by
  refine ⟨by decide, by decide⟩

/-- C2 (amended): for every channel index outside the allocated slot range
(`≥ len(ws2811.leds)`, which is `RpiPwmChannels = 2` after `Init`), `Leds`
and `SetLedsSync` crash with an index-out-of-range panic rather than
returning an error. -/
theorem c2_amended_out_of_range_panics :
    ∀ (dev : WS2811) (channel : Nat) (vals : List Nat),
    dev.leds.length ≤ channel →
    dev.Leds channel = none ∧ dev.SetLedsSync channel vals = none := by
  intro dev channel vals h
  refine ⟨List.get?_len_le h, ?_⟩
  unfold WS2811.SetLedsSync
  rcases hch : dev.options.channels.head? with _ | c
  · rfl
  · rw [List.get?_len_le h]

/-- C2 (witness): the amended statement at the concrete device `devA` and
channel 3. -/
theorem c2_amended_witness :
    devA.Leds 3 = none ∧ devA.SetLedsSync 3 [5] = none :=
  c2_amended_out_of_range_panics devA 3 [5] (by decide)

/-- C3: a write to a valid channel longer than the channel's capacity is
rejected with the `Too many LEDs` error (the source's rendering of
`LengthExceeded`), and the device — in particular the channel's LED buffer —
is returned unmodified: the length guard runs before the write loop, so no
slot is written. -/
theorem c3_length_exceeded_rejected_unmodified :
    ∀ (dev : WS2811) (channel : Nat) (vals cur : List Nat),
    dev.options.channels ≠ [] → dev.leds.get? channel = some cur →
    cur.length < vals.length →
    dev.SetLedsSync channel vals = some (dev, Except.error "Error: Too many LEDs") := by
  intro dev channel vals cur hne hcur hlen
  unfold WS2811.SetLedsSync
  rcases hch : dev.options.channels with _ | ⟨c, rest⟩
  · exact absurd hch hne
  · simp only [List.head?, hcur]
    rw [if_pos hlen]

/-- C3 (witness): writing 5 values to the 4-LED channel 0 of `devA` is
rejected and leaves `devA` unchanged. -/
theorem c3_witness :
    devA.SetLedsSync 0 [1, 2, 3, 4, 5] =
      some (devA, Except.error "Error: Too many LEDs") :=
  c3_length_exceeded_rejected_unmodified devA 0 [1, 2, 3, 4, 5]
    (List.replicate 4 0) (by decide) (by decide) (by decide)

/-- C4: a write to a valid channel that fits the capacity succeeds; the
channel's buffer afterwards (as returned by `Leds`) carries the written
values in its first `vals.length` slots and retains its prior state in
every slot from `vals.length` on — no zero-padding. -/
theorem c4_set_leds_in_range :
    ∀ (dev : WS2811) (channel : Nat) (vals cur : List Nat),
    dev.options.channels ≠ [] → dev.leds.get? channel = some cur →
    vals.length ≤ cur.length →
    dev.SetLedsSync channel vals =
      some ({ dev with leds := dev.leds.set channel (writeFirstSlots cur vals) },
            Except.ok ()) ∧
    WS2811.Leds { dev with leds := dev.leds.set channel (writeFirstSlots cur vals) }
        channel = some (writeFirstSlots cur vals) ∧
    (writeFirstSlots cur vals).take vals.length = vals ∧
    (writeFirstSlots cur vals).drop vals.length = cur.drop vals.length := by
  intro dev channel vals cur hne hcur hle
  have hchlt : channel < dev.leds.length := by
    by_contra hcontra
    rw [List.get?_len_le (Nat.le_of_not_lt hcontra)] at hcur
    exact absurd hcur (by simp)
  refine ⟨?_, ?_, ?_, ?_⟩
  · unfold WS2811.SetLedsSync
    rcases hch : dev.options.channels with _ | ⟨c, rest⟩
    · exact absurd hch hne
    · simp only [List.head?, hcur]
      rw [if_neg (Nat.not_lt.mpr hle)]
  · exact get?_set_self _ _ _ hchlt
  · simpa only [writeFirstSlots] using List.take_left vals (cur.drop vals.length)
  · simpa only [writeFirstSlots] using List.drop_left vals (cur.drop vals.length)

/-- C4 (witness): writing `[7, 8]` to the 4-LED channel 0 of `devA` lands
the two values in slots 0 and 1 and keeps the prior zeros in slots 2
and 3. -/
theorem c4_witness :
    devA.SetLedsSync 0 [7, 8] =
      some ({ initialized := false, options := optA
              leds := [[7, 8, 0, 0], []], lastRender := 0 }, Except.ok ()) :=
  ((c4_set_leds_in_range devA 0 [7, 8] (List.replicate 4 0)
    (by decide) (by decide) (by decide)).1).trans (by decide)

/-- C10: `Init` allocates exactly `RpiPwmChannels = 2` LED slots and sizes
one per configured channel: with more than 2 configured channels the sizing
loop indexes past the allocation and panics (`none`) instead of returning
an error, while with at most 2 it succeeds and each configured channel's
slot is a zeroed buffer of exactly its LED count. -/
theorem c10_init_two_slots :
    ∀ dev : WS2811, dev.initialized = false →
    (RpiPwmChannels < dev.options.channels.length → dev.Init = none) ∧
    (dev.options.channels.length ≤ RpiPwmChannels →
      ∃ leds', dev.Init = some (Except.ok { dev with leds := leds' }) ∧
        leds'.length = RpiPwmChannels ∧
        ∀ i ch, dev.options.channels.get? i = some ch →
          leds'.get? i = some (List.replicate ch.ledCount 0)) := by
  intro dev hinit
  constructor
  · intro hgt
    unfold WS2811.Init
    rw [hinit]
    simp only [Bool.false_eq_true, if_false]
    rw [allocLoop_none dev.options.channels 0 (List.replicate RpiPwmChannels [])
      (by intro hnil; rw [hnil] at hgt; simp [RpiPwmChannels] at hgt)
      (by simpa using hgt)]
  · intro hle
    obtain ⟨leds', hsome⟩ := allocLoop_some_of_le dev.options.channels 0
      (List.replicate RpiPwmChannels []) (by simpa using hle)
    obtain ⟨hlen, hget, _⟩ := allocLoop_some_spec _ _ _ _ hsome
    refine ⟨leds', ?_, by simpa using hlen, fun i ch hi => by simpa using hget i ch hi⟩
    unfold WS2811.Init
    rw [hinit]
    simp only [Bool.false_eq_true, if_false, hsome]

/-- C10 (witness): with the three-channel configuration `optB`, `Init`
panics. -/
theorem c10_witness :
    RpiPwmChannels < (MakeWS2811 optB).options.channels.length ∧
    (MakeWS2811 optB).Init = none :=
  ⟨by decide, (c10_init_two_slots (MakeWS2811 optB) rfl).1 (by decide)⟩

/-- C5: the pacing interval computed by `Wait` is
`(8 * 3 * ledCount + 0.05) / frequency` seconds, taken from channel 0's LED
count; `Wait` suspends the caller for exactly the positive part of
`lastRender + interval - now` (returning immediately when it is not
positive); and for 16 LEDs at frequency 800000 the interval is exactly
`384.05 / 800000 = 7681 / 16000000 ≈ 0.00048006` seconds. -/
theorem c5_wait_pacing_interval :
    (∀ (dev : WS2811) (now : ℚ) (ch0 : ChannelOption),
      dev.options.channels.head? = some ch0 →
      waitDt dev =
        some (((8 * 3 * ch0.ledCount : ℚ) + 1 / 20) / (dev.options.frequency : ℚ)) ∧
      waitSleep dev now =
        some (max 0 (dev.lastRender +
          ((8 * 3 * ch0.ledCount : ℚ) + 1 / 20) / (dev.options.frequency : ℚ) - now))) ∧
    waitDt dev16 = some (7681 / 16000000) := by
  constructor
  · intro dev now ch0 hch
    constructor
    · simp [waitDt, hch]
    · simp [waitSleep, waitDt, hch]
  · simp only [waitDt, dev16, MakeWS2811, List.head?, Option.map_some',
      Option.some.injEq, ch16]
    norm_num

/-- C5 (witness): the concrete 16-LED scenario, evaluated at `now = 1`
(far past `lastRender + interval`, so `Wait` returns immediately with a
zero suspension). -/
theorem c5_witness :
    waitDt dev16 = some (7681 / 16000000) ∧ waitSleep dev16 1 = some 0 := by
  refine ⟨c5_wait_pacing_interval.2, ?_⟩
  have h := (c5_wait_pacing_interval.1 dev16 1 ch16 rfl).2
  rw [h]
  simp only [Option.some.injEq]
  rw [max_eq_left (by norm_num [dev16, MakeWS2811, ch16])]

/-- C6: on every reachable device whose channel 0 is configured, `Render`
succeeds and appends exactly one frame to the hub's broadcast stream,
carrying channel 0's configuration and channel 0's current LED values,
whose length equals channel 0's configured LED count. -/
theorem c6_render_broadcasts_channel0 :
    ∀ (dev : WS2811) (hub : List Frame) (now tNow : ℚ) (ch0 : ChannelOption),
    Reachable dev → dev.options.channels.head? = some ch0 →
    ∃ l0, dev.leds.head? = some l0 ∧ l0.length = ch0.ledCount ∧
      dev.Render hub now tNow =
        some ({ dev with lastRender := tNow }, hub ++ [⟨ch0, l0⟩]) := by
  intro dev hub now tNow ch0 hreach hch
  obtain ⟨hlen2, hinv⟩ := reachable_ledsInv dev hreach
  obtain ⟨l0, hl0, hl0len⟩ := hinv 0 ch0 (by rw [List.get?_zero]; exact hch)
  have hhead : dev.leds.head? = some l0 := by rw [← List.get?_zero]; exact hl0
  refine ⟨l0, hhead, hl0len, ?_⟩
  unfold WS2811.Render renderTrace
  simp [waitSleep, waitDt, hch, hhead, applyREvent]

/-- C6 (witness): rendering the reachable device `devA` hands the hub one
frame with channel 0's option and its four zeroed LEDs. -/
theorem c6_witness :
    devA.Render [] 0 5 =
      some ({ initialized := false, options := optA
              leds := [[0, 0, 0, 0], []], lastRender := 5 },
            [⟨chA, [0, 0, 0, 0]⟩]) := by
  obtain ⟨l0, hl0, _, hrender⟩ := c6_render_broadcasts_channel0 devA [] 0 5 chA
    (Reachable.dInit optA devA (by decide)) (by decide)
  have hl : l0 = [0, 0, 0, 0] := by
    have : devA.leds.head? = some [0, 0, 0, 0] := by decide
    rw [this] at hl0
    exact (Option.some.injEq _ _ ▸ hl0).symm
  rw [hl] at hrender
  exact hrender.trans (by decide)

/-- C7: in every successful `Render`, the hand-off of the serialized frame
to the hub's broadcast channel occurs strictly before the new `lastRender`
timestamp is recorded: in the event trace, every hand-off event precedes
every timestamp-record event. -/
theorem c7_handoff_precedes_record :
    ∀ (dev : WS2811) (now tNow : ℚ) (tr : List REvent),
    renderTrace dev now tNow = some tr →
    ∀ (i j : Nat) (f : Frame) (t : ℚ),
      tr.get? i = some (REvent.handoff f) →
      tr.get? j = some (REvent.recordLastRender t) → i < j := by
  intro dev now tNow tr htr i j f t hi hj
  obtain ⟨d, ch0, l0, _, _, _, rfl⟩ := renderTrace_some dev now tNow tr htr
  have hi1 : i = 1 := by
    rcases i with _ | _ | _ | i <;> simp_all
  have hj2 : j = 2 := by
    rcases j with _ | _ | _ | j <;> simp_all
  omega

/-- C7 (witness): the concrete trace of rendering `devA`, in which the
hand-off (index 1) precedes the timestamp record (index 2). -/
theorem c7_witness :
    renderTrace devA 0 0 =
      some [REvent.sleep (1921 / 16000000), REvent.handoff ⟨chA, [0, 0, 0, 0]⟩,
            REvent.recordLastRender 0] ∧ (1 : Nat) < 2 := by
  have hsleep : waitSleep devA 0 = some (1921 / 16000000) := by
    rw [(c5_wait_pacing_interval.1 devA 0 chA rfl).2]
    simp only [Option.some.injEq]
    rw [max_eq_right (by norm_num [devA, optA, chA])]
    norm_num [devA, optA, chA]
  have htr : renderTrace devA 0 0 =
      some [REvent.sleep (1921 / 16000000), REvent.handoff ⟨chA, [0, 0, 0, 0]⟩,
            REvent.recordLastRender 0] := by
    unfold renderTrace
    rw [hsleep]
    rfl
  exact ⟨htr, c7_handoff_precedes_record devA 0 0 _ htr 1 2
    ⟨chA, [0, 0, 0, 0]⟩ 0 rfl rfl⟩

theorem drainLoop_drains : ∀ (q : List (List Nat)) (acc : List Nat),
    drainLoop q.length q acc = ([], acc ++ q.flatten)
  | [], acc => by simp [drainLoop]
  | m :: q, acc => by
    simp only [List.length_cons, drainLoop, List.flatten_cons]
    rw [drainLoop_drains q (acc ++ m)]
    simp [List.append_assoc]

/-- C8: when the writer dequeues `message` while `K` further messages sit
in its outbound queue, `sendMessage` drains all `K` of them into the same
single transmission unit, concatenated after `message` in FIFO (enqueue)
order, and empties the queue: the transport observes one unit, not
`K + 1`. -/
theorem c8_writer_coalesces_fifo :
    ∀ (c : Client) (message : List Nat),
    c.sendMessage message = ({ send := [] }, message ++ c.send.flatten) := by
  intro c message
  simp [Client.sendMessage, drainLoop_drains]

theorem copyChannels_fresh : ∀ (chs : List ChannelOptionH) (h h₁ : Heap)
    (chs' : List ChannelOptionH), copyChannels h chs = some (h₁, chs') →
    h.nextFree ≤ h₁.nextFree ∧
    ∀ c' ∈ chs', ∀ g, c'.gammaRef = some g → h.nextFree ≤ g
  | [], h, h₁, chs', hcopy => by
    simp only [copyChannels, Option.some.injEq, Prod.mk.injEq] at hcopy
    obtain ⟨rfl, rfl⟩ := hcopy
    exact ⟨Nat.le_refl _, by simp⟩
  | c :: rest, h, h₁, chs', hcopy => by
    simp only [copyChannels] at hcopy
    split at hcopy
    · next hnone =>
      split at hcopy
      · exact absurd hcopy (by simp)
      · next h₂ cs hrec =>
        simp only [Option.some.injEq, Prod.mk.injEq] at hcopy
        obtain ⟨rfl, rfl⟩ := hcopy
        obtain ⟨hle, hrefs⟩ := copyChannels_fresh rest h h₂ cs hrec
        refine ⟨hle, fun c' hc' g hg => ?_⟩
        rcases List.mem_cons.mp hc' with rfl | hc'
        · rw [hnone] at hg; cases hg
        · exact hrefs c' hc' g hg
    · next g0 hsome =>
      split at hcopy
      · exact absurd hcopy (by simp)
      · next bs hbs =>
        split at hcopy
        · exact absurd hcopy (by simp)
        · next h₂ cs hrec =>
          simp only [Option.some.injEq, Prod.mk.injEq] at hcopy
          obtain ⟨rfl, rfl⟩ := hcopy
          obtain ⟨hle, hrefs⟩ := copyChannels_fresh rest (allocByte h bs).1 h₂ cs hrec
          have hstep : h.nextFree + 1 = (allocByte h bs).1.nextFree := rfl
          refine ⟨by omega, fun c' hc' g hg => ?_⟩
          rcases List.mem_cons.mp hc' with rfl | hc'
          · simp only [allocByte, Option.some.injEq] at hg
            omega
          · have := hrefs c' hc' g hg
            omega

theorem resolveChannels_congr : ∀ (chs : List ChannelOptionH) (hA hB : Heap),
    (∀ c ∈ chs, ∀ g, c.gammaRef = some g → hA.byteCells g = hB.byteCells g) →
    resolveChannels hA chs = resolveChannels hB chs
  | [], _, _, _ => rfl
  | c :: rest, hA, hB, hag => by
    have htail := resolveChannels_congr rest hA hB
      (fun c' hc' => hag c' (List.mem_cons_of_mem _ hc'))
    have hhead : resolveChannel hA c = resolveChannel hB c := by
      rcases hg : c.gammaRef with _ | g
      · simp only [resolveChannel, hg]
      · simp only [resolveChannel, hg]
        rw [hag c (List.mem_cons_self _ _) g hg]
    simp only [resolveChannels, hhead, htail]

theorem resolveOption_stable : ∀ (h : Heap) (r : Nat) (h' : Heap) (r' : Nat)
    (h₂ : Heap), deepCopy h r = some (h', r') → PreservesFresh h.nextFree h' h₂ →
    resolveOption h₂ r' = resolveOption h' r' := by
  intro h r h' r' h₂ hcopy hp
  obtain ⟨hpOpt, hpChan, hpByte⟩ := hp
  unfold deepCopy at hcopy
  split at hcopy
  · exact absurd hcopy (by simp)
  · next o hoeq =>
    split at hcopy
    · exact absurd hcopy (by simp)
    · next chs hceq =>
      split at hcopy
      · exact absurd hcopy (by simp)
      · next h₁ chs' hcc =>
        obtain ⟨hbound, hrefs⟩ := copyChannels_fresh chs h h₁ chs' hcc
        simp only [allocChan, allocOption, Option.some.injEq, Prod.mk.injEq] at hcopy
        obtain ⟨hH, hR⟩ := hcopy
        subst hR
        have hopt' : h'.optionCells (h₁.nextFree + 1) =
            some { o with channelsRef := h₁.nextFree } := by
          rw [← hH]
          simp
        have hchan' : h'.chanCells h₁.nextFree = some chs' := by
          rw [← hH]
          simp
        have e3 : resolveChannels h₂ chs' = resolveChannels h' chs' :=
          resolveChannels_congr chs' h₂ h'
            (fun c' hc' g hg => hpByte g (hrefs c' hc' g hg))
        simp only [resolveOption, hpOpt (h₁.nextFree + 1) (by omega),
          hpChan h₁.nextFree (by omega), hopt', hchan', e3]

/-- C9: `MakeWS2811` deep-copies the caller's configuration (option record,
channel slice and gamma tables) into fresh heap cells, so two runs that
start from the same configuration and differ only in mutations the caller
applies afterwards through its own references — all of which predate the
copy, hence preserve every cell at an address `≥ nextFree` at copy time —
observe the same resolved configuration, and the instances built from it
(whose operations `Init`, `SetLedsSync`, `Render`, `Wait` are pure
functions of that value) are identical. -/
theorem c9_deep_copy_isolates_instance :
    ∀ (h : Heap) (r : Nat) (h' : Heap) (r' : Nat) (h₂ h₃ : Heap),
    deepCopy h r = some (h', r') →
    PreservesFresh h.nextFree h' h₂ → PreservesFresh h.nextFree h' h₃ →
    resolveOption h₂ r' = resolveOption h₃ r' ∧
    (resolveOption h₂ r').map MakeWS2811 = (resolveOption h₃ r').map MakeWS2811 := by
  intro h r h' r' h₂ h₃ hcopy hp₂ hp₃
  have e₂ := resolveOption_stable h r h' r' h₂ hcopy hp₂
  have e₃ := resolveOption_stable h r h' r' h₃ hcopy hp₃
  exact ⟨e₂.trans e₃.symm, by rw [e₂, e₃]⟩

/-- Sanity check that the heap model is not vacuously isolated: the same
caller-side gamma overwrite is visible through the caller's own root
reference, so only the deep copy shields the instance. -/
theorem mutGamma_visible_through_caller_root :
    resolveOption (mutGamma hW') 0 ≠ resolveOption hW' 0 := by decide

/-- C9 (witness): on the concrete heap `hW`, overwriting the caller's gamma
table in place after the copy leaves the instance's resolved configuration
untouched. -/
theorem c9_witness :
    resolveOption (mutGamma hW') rW' = resolveOption hW' rW' :=
  (c9_deep_copy_isolates_instance hW 0 hW' rW' (mutGamma hW') hW' rfl
    ⟨fun a _ => rfl, fun a _ => rfl,
     fun a ha => if_neg (by have ha2 : 2 ≤ a := ha; omega)⟩
    ⟨fun a _ => rfl, fun a _ => rfl, fun a _ => rfl⟩).1
